import Mathlib

/-!
Shallow embedding of the request-logging and per-host statistics engine of
`src/db/reqlog.c`, together with proofs about its specification.

Strings are modelled as lists of bytes (`List Nat`), C `int` as `Int`,
C `unsigned` as `Nat` with explicit `% 2^32` where wrap-around matters,
and C `double` as `ℚ` (the source only ever stores integral range bounds
and compares; the rate computation is modelled in exact arithmetic).
-/

namespace Reqlog

/-- `MAX_PREFIXES` from reqlog.c (`enum { MAX_PREFIXES = 16 }`). -/
def MAX_PREFIXES : Int := 16

/-- The prefix stack (`struct prefix_type`): a flat 256-byte buffer
`prefix` (modelled as the total function `prefix_buf : Int → Nat` over C
pointer offsets), a current length `pos`, a 16-slot stack of saved
positions and a depth counter `stack_pos`.  The C field `prefix` is
renamed `prefix_buf`. -/
structure prefix_type where
  prefix_buf : Int → Nat
  pos : Int
  stack : Int → Int
  stack_pos : Int

/-- `prefix_init`: `p->pos = 0; p->stack_pos = 0; p->prefix[0] = '\0';`. -/
def prefix_init (p : prefix_type) : prefix_type :=
  { p with pos := 0, stack_pos := 0,
           prefix_buf := Function.update p.prefix_buf 0 0 }

/-- `prefix_push(p, text, len)`: if the depth is below `MAX_PREFIXES`, save
`pos` on the stack, truncate `len` so that `len + pos < 256`, `memcpy` the
text at offset `pos`, advance `pos` and NUL-terminate.  The depth counter
is incremented unconditionally. -/
def prefix_push (p : prefix_type) (text : Int → Nat) (len : Int) : prefix_type :=
  if p.stack_pos < MAX_PREFIXES then
    let len' : Int := if len + p.pos ≥ 256 then (256 - 1) - p.pos else len
    let buf1 : Int → Nat := fun i =>
      if p.pos ≤ i ∧ i < p.pos + len' then text (i - p.pos) else p.prefix_buf i
    { prefix_buf := Function.update buf1 (p.pos + len') 0,
      pos := p.pos + len',
      stack := Function.update p.stack p.stack_pos p.pos,
      stack_pos := p.stack_pos + 1 }
  else
    { p with stack_pos := p.stack_pos + 1 }

/-- `prefix_pop(p)`: decrement the depth; if it went negative, clamp depth
and `pos` to zero (logged as a nonfatal error in C); if the decremented
depth is below `MAX_PREFIXES`, restore `pos` from the stack.  In every
case the buffer is NUL-terminated at the resulting `pos`. -/
def prefix_pop (p : prefix_type) : prefix_type :=
  if p.stack_pos - 1 < 0 then
    { p with stack_pos := 0, pos := 0,
             prefix_buf := Function.update p.prefix_buf 0 0 }
  else if p.stack_pos - 1 < MAX_PREFIXES then
    { p with stack_pos := p.stack_pos - 1, pos := p.stack (p.stack_pos - 1),
             prefix_buf := Function.update p.prefix_buf (p.stack (p.stack_pos - 1)) 0 }
  else
    { p with stack_pos := p.stack_pos - 1,
             prefix_buf := Function.update p.prefix_buf p.pos 0 }

/-- `prefix_pop_all(p)`: reset depth and position, NUL-terminate at 0. -/
def prefix_pop_all (p : prefix_type) : prefix_type :=
  { p with stack_pos := 0, pos := 0,
           prefix_buf := Function.update p.prefix_buf 0 0 }

/-- Apply `prefix_push` for each `(text, len)` pair in order. -/
def pushN (p : prefix_type) : List ((Int → Nat) × Int) → prefix_type
  | [] => p
  | t :: ts => pushN (prefix_push p t.1 t.2) ts

/-- Apply `prefix_pop` `n` times (the last application outermost, so
`popN (n+1) s = prefix_pop (popN n s)` undoes the first push last). -/
def popN : Nat → prefix_type → prefix_type
  | 0, p => p
  | n + 1, p => prefix_pop (popN n p)

/-- Every `prefix_pop` leaves a NUL at the resulting position. -/
lemma prefix_pop_null (p : prefix_type) :
    (prefix_pop p).prefix_buf (prefix_pop p).pos = 0 := by
  unfold prefix_pop
  by_cases h1 : p.stack_pos - 1 < 0
  · simp [h1]
  · by_cases h2 : p.stack_pos - 1 < MAX_PREFIXES
    · simp [h1, h2]
    · simp [h1, h2]

/-- `prefix_pop` at a depth strictly above `MAX_PREFIXES` only decrements
the depth and rewrites the NUL terminator at the current position. -/
lemma prefix_pop_deep (p : prefix_type) (h1 : ¬ (p.stack_pos - 1 < 0))
    (h2 : ¬ (p.stack_pos - 1 < MAX_PREFIXES)) :
    prefix_pop p = { p with stack_pos := p.stack_pos - 1,
                            prefix_buf := Function.update p.prefix_buf p.pos 0 } := by
  unfold prefix_pop
  rw [if_neg h1, if_neg h2]

/-- `prefix_push` never changes the stack entries strictly below the
pre-push depth. -/
lemma prefix_push_stack_lt (p : prefix_type) (t : Int → Nat) (len : Int)
    (j : Int) (hj : j < p.stack_pos) :
    (prefix_push p t len).stack j = p.stack j := by
  unfold prefix_push
  by_cases h : p.stack_pos < MAX_PREFIXES
  · simp only [h, if_true]
    exact Function.update_noteq (by omega) _ _
  · simp [h]

/-- Core round-trip lemma: `k` pushes followed by `k` pops restore `pos`,
`stack_pos`, and every stack slot below the original depth. -/
lemma popN_pushN (ts : List ((Int → Nat) × Int)) :
    ∀ q : prefix_type, 0 ≤ q.stack_pos →
      (popN ts.length (pushN q ts)).pos = q.pos ∧
      (popN ts.length (pushN q ts)).stack_pos = q.stack_pos ∧
      ∀ j, j < q.stack_pos →
        (popN ts.length (pushN q ts)).stack j = q.stack j := by
  induction ts with
  | nil => intro q _; exact ⟨rfl, rfl, fun _ _ => rfl⟩
  | cons t ts ih =>
    intro q hq
    have hq' : 0 ≤ (prefix_push q t.1 t.2).stack_pos := by
      unfold prefix_push
      by_cases h : q.stack_pos < MAX_PREFIXES <;> simp [h] <;> omega
    obtain ⟨hpos, hsp, hstk⟩ := ih (prefix_push q t.1 t.2) hq'
    have hsp' : (prefix_push q t.1 t.2).stack_pos = q.stack_pos + 1 := by
      unfold prefix_push
      by_cases h : q.stack_pos < MAX_PREFIXES <;> simp [h]
    set r := popN ts.length (pushN (prefix_push q t.1 t.2) ts) with hr
    have hlen : (t :: ts).length = ts.length + 1 := rfl
    have hstep : popN ((t :: ts).length) (pushN q (t :: ts)) = prefix_pop r := by
      simp only [hlen, pushN, popN, hr]
    rw [hstep]
    have hrsp : r.stack_pos = q.stack_pos + 1 := by rw [hsp, hsp']
    have hnotneg : ¬ (r.stack_pos - 1 < 0) := by omega
    by_cases hcase : q.stack_pos < MAX_PREFIXES
    · -- the push saved q.pos in slot q.stack_pos; the pop reads it back
      have hlt : r.stack_pos - 1 < MAX_PREFIXES := by omega
      have hread : r.stack (r.stack_pos - 1) = q.pos := by
        have h1 : r.stack (r.stack_pos - 1)
            = (prefix_push q t.1 t.2).stack (r.stack_pos - 1) := by
          apply hstk
          omega
        rw [h1]
        have : r.stack_pos - 1 = q.stack_pos := by omega
        rw [this]
        unfold prefix_push
        simp [hcase]
      refine ⟨?_, ?_, ?_⟩
      · unfold prefix_pop
        simp only [hnotneg, if_false, hlt, if_true]
        exact hread
      · unfold prefix_pop
        simp only [hnotneg, if_false, hlt, if_true]
        omega
      · intro j hj
        unfold prefix_pop
        simp only [hnotneg, if_false, hlt, if_true]
        have h1 : r.stack j = (prefix_push q t.1 t.2).stack j := by
          apply hstk; omega
        rw [h1]
        exact prefix_push_stack_lt q t.1 t.2 j hj
    · -- depth already at/above MAX_PREFIXES: push and pop touch only depth
      have hge : ¬ (r.stack_pos - 1 < MAX_PREFIXES) := by omega
      have hqpos : (prefix_push q t.1 t.2).pos = q.pos := by
        unfold prefix_push; simp [hcase]
      refine ⟨?_, ?_, ?_⟩
      · unfold prefix_pop
        simp only [hnotneg, if_false, hge, if_false]
        rw [hpos, hqpos]
      · unfold prefix_pop
        simp only [hnotneg, if_false, hge, if_false]
        omega
      · intro j hj
        unfold prefix_pop
        simp only [hnotneg, if_false, hge, if_false]
        have h1 : r.stack j = (prefix_push q t.1 t.2).stack j := by
          apply hstk; omega
        rw [h1]
        exact prefix_push_stack_lt q t.1 t.2 j hj

/-- Well-formedness of a prefix stack state: the current position and all
saved positions lie inside the 256-byte buffer.  This holds for every
state reachable from `prefix_init` of a zeroed `struct reqlogger`. -/
def WFpfx (p : prefix_type) : Prop :=
  0 ≤ p.pos ∧ p.pos ≤ 255 ∧ ∀ j, 0 ≤ p.stack j ∧ p.stack j ≤ 255

/-- C2: `prefix_push` followed immediately by `prefix_pop` restores `pos`
and `stack_pos` exactly (even when the pushed text was truncated);
`k` pushes followed by `k` pops from an initial state yield the empty
prefix string (`pos = 0` with a NUL at offset 0) and depth zero; and
`prefix_pop_all` reaches that same observable state from any depth. -/
theorem prefix_push_pop_roundtrip :
    (∀ (p : prefix_type) (t : Int → Nat) (len : Int), 0 ≤ p.stack_pos →
       (prefix_pop (prefix_push p t len)).pos = p.pos ∧
       (prefix_pop (prefix_push p t len)).stack_pos = p.stack_pos) ∧
    (∀ (p0 : prefix_type) (ts : List ((Int → Nat) × Int)),
       (popN ts.length (pushN (prefix_init p0) ts)).pos = 0 ∧
       (popN ts.length (pushN (prefix_init p0) ts)).stack_pos = 0 ∧
       (popN ts.length (pushN (prefix_init p0) ts)).prefix_buf 0 = 0) ∧
    (∀ p : prefix_type,
       (prefix_pop_all p).pos = 0 ∧ (prefix_pop_all p).stack_pos = 0 ∧
       (prefix_pop_all p).prefix_buf 0 = 0) := by
  refine ⟨?_, ?_, ?_⟩
  · intro p t len hp
    have h := popN_pushN [(t, len)] p hp
    simpa [pushN, popN] using ⟨h.1, h.2.1⟩
  · intro p0 ts
    have hq : 0 ≤ (prefix_init p0).stack_pos := by simp [prefix_init]
    obtain ⟨hpos, hsp, -⟩ := popN_pushN ts (prefix_init p0) hq
    have hipos : (prefix_init p0).pos = 0 := rfl
    have hisp : (prefix_init p0).stack_pos = 0 := rfl
    refine ⟨by rw [hpos, hipos], by rw [hsp, hisp], ?_⟩
    cases ts with
    | nil => simp [popN, pushN, prefix_init]
    | cons t ts' =>
      have hstep : popN ((t :: ts').length) (pushN (prefix_init p0) (t :: ts'))
          = prefix_pop (popN ts'.length
              (pushN (prefix_push (prefix_init p0) t.1 t.2) ts')) := rfl
      rw [hstep]
      have hnull := prefix_pop_null
        (popN ts'.length (pushN (prefix_push (prefix_init p0) t.1 t.2) ts'))
      have hpos0 : (prefix_pop (popN ts'.length
          (pushN (prefix_push (prefix_init p0) t.1 t.2) ts'))).pos = 0 := by
        have := hpos
        simpa [pushN, popN, hipos] using this
      rw [hpos0] at hnull
      exact hnull
  · intro p
    refine ⟨rfl, rfl, ?_⟩
    simp [prefix_pop_all]

/-- Witness for `prefix_push_pop_roundtrip` at a concrete state. -/
theorem prefix_push_pop_roundtrip_witness :
    (0:Int) ≤ (prefix_type.mk (fun _ => 0) 3 (fun _ => 0) 2).stack_pos ∧
    (prefix_pop (prefix_push (prefix_type.mk (fun _ => 0) 3 (fun _ => 0) 2)
        (fun _ => 65) 4)).pos = 3 := by
  constructor
  · decide
  · exact (prefix_push_pop_roundtrip.1
      (prefix_type.mk (fun _ => 0) 3 (fun _ => 0) 2) (fun _ => 65) 4
      (by decide)).1

/-- C9: with the stack already holding 16 frames, a 17th `prefix_push`
leaves the buffer and `pos` unchanged while still incrementing the depth,
and the matching 17th `prefix_pop` decrements only the depth (given the
maintained NUL at `pos`, its terminating store rewrites an existing NUL);
moreover, from any well-formed state, no prefix operation modifies the
buffer outside offsets `[0, 255]`. -/
theorem prefix_depth_overflow_safe :
    (∀ (p : prefix_type) (t : Int → Nat) (len : Int),
       p.stack_pos = 16 → p.prefix_buf p.pos = 0 →
       (prefix_push p t len).prefix_buf = p.prefix_buf ∧
       (prefix_push p t len).pos = p.pos ∧
       (prefix_push p t len).stack_pos = 17 ∧
       (prefix_pop (prefix_push p t len)).prefix_buf = p.prefix_buf ∧
       (prefix_pop (prefix_push p t len)).pos = p.pos ∧
       (prefix_pop (prefix_push p t len)).stack_pos = 16) ∧
    (∀ (p : prefix_type) (t : Int → Nat) (len : Int), WFpfx p → 0 ≤ len →
       ∀ i : Int, i < 0 ∨ 255 < i →
         (prefix_push p t len).prefix_buf i = p.prefix_buf i ∧
         (prefix_pop p).prefix_buf i = p.prefix_buf i ∧
         (prefix_pop_all p).prefix_buf i = p.prefix_buf i) := by
  constructor
  · intro p t len hsp hnull
    have hnotlt : ¬ (p.stack_pos < MAX_PREFIXES) := by
      rw [hsp]; decide
    have hpush : prefix_push p t len = { p with stack_pos := p.stack_pos + 1 } := by
      unfold prefix_push; simp [hnotlt]
    have h1 : ¬ ((prefix_push p t len).stack_pos - 1 < 0) := by
      rw [hpush]
      show ¬ (p.stack_pos + 1 - 1 < 0)
      omega
    have h2 : ¬ ((prefix_push p t len).stack_pos - 1 < MAX_PREFIXES) := by
      rw [hpush]
      show ¬ (p.stack_pos + 1 - 1 < (16 : Int))
      omega
    have hpop := prefix_pop_deep (prefix_push p t len) h1 h2
    have hupd : Function.update p.prefix_buf p.pos 0 = p.prefix_buf := by
      funext i
      by_cases hi : i = p.pos
      · subst hi; simp [hnull]
      · simp [Function.update_noteq hi]
    refine ⟨by rw [hpush], by rw [hpush], by rw [hpush]; simp [hsp], ?_, ?_, ?_⟩
    · rw [hpop, hpush]
      exact hupd
    · rw [hpop, hpush]
    · rw [hpop, hpush]
      show p.stack_pos + 1 - 1 = 16
      omega
  · intro p t len hwf hlen i hi
    obtain ⟨hpos0, hpos255, hstk⟩ := hwf
    refine ⟨?_, ?_, ?_⟩
    · unfold prefix_push
      by_cases h : p.stack_pos < MAX_PREFIXES
      · by_cases hc : len + p.pos ≥ 256
        · simp only [h, if_true, hc, if_true]
          rw [Function.update_noteq (by omega)]
          have hout : ¬ (p.pos ≤ i ∧ i < p.pos + ((256 - 1) - p.pos)) := by omega
          simp only [hout, if_false]
        · simp only [h, if_true, hc, if_false]
          rw [Function.update_noteq (by omega)]
          have hout : ¬ (p.pos ≤ i ∧ i < p.pos + len) := by omega
          simp only [hout, if_false]
      · simp [h]
    · unfold prefix_pop
      by_cases h1 : p.stack_pos - 1 < 0
      · simp only [h1, if_true]
        exact Function.update_noteq (by omega) _ _
      · by_cases h2 : p.stack_pos - 1 < MAX_PREFIXES
        · simp only [h1, if_false, h2, if_true]
          have := hstk (p.stack_pos - 1)
          exact Function.update_noteq (by omega) _ _
        · simp only [h1, if_false, h2, if_false]
          exact Function.update_noteq (by omega) _ _
    · unfold prefix_pop_all
      exact Function.update_noteq (by omega) _ _

/-- Witness for `prefix_depth_overflow_safe` at a concrete depth-16 state. -/
theorem prefix_depth_overflow_safe_witness :
    (prefix_type.mk (fun _ => 0) 3 (fun _ => 0) 16).stack_pos = 16 ∧
    (prefix_type.mk (fun _ => 0) 3 (fun _ => 0) 16).prefix_buf 3 = 0 ∧
    (prefix_pop (prefix_push (prefix_type.mk (fun _ => 0) 3 (fun _ => 0) 16)
        (fun _ => 65) 2)).pos = 3 ∧
    (prefix_pop (prefix_push (prefix_type.mk (fun _ => 0) 3 (fun _ => 0) 16)
        (fun _ => 65) 2)).stack_pos = 16 := by
  have h := prefix_depth_overflow_safe.1
    (prefix_type.mk (fun _ => 0) 3 (fun _ => 0) 16) (fun _ => 65) 2 rfl rfl
  exact ⟨rfl, rfl, h.2.2.2.2.1, h.2.2.2.2.2⟩

/-! ## Lists, ranges and rules -/

/-- `LIST_MAX` from reqlog.c (`enum { LIST_MAX = 32 }`). -/
def LIST_MAX : Nat := 32

/-- `MAXSTMT` from reqlog.c (`enum { MAXSTMT = 31, NUMSTMTS = 16 }`). -/
def MAXSTMT : Nat := 31

/-- `NUMSTMTS` from reqlog.c. -/
def NUMSTMTS : Nat := 16

/-- `struct list`: a bounded list of integers with a polarity flag
(`inv` nonzero means "allow values not in list").  The C array of
`LIST_MAX` slots together with `num` is modelled as the list of its first
`num` entries; `add_list` keeps its length at most `LIST_MAX`. -/
structure list where
  inv : Bool
  list : List Int
deriving DecidableEq

/-- `struct range`: inclusive `[from, to]`, `-1` meaning unbounded. -/
structure range where
  «from» : Int
  «to» : Int
deriving DecidableEq

/-- `struct dblrange`; C doubles modelled as rationals (the source only
stores integral bounds, assigned from `struct range`). -/
structure dblrange where
  «from» : ℚ
  «to» : ℚ
deriving DecidableEq

/-- `init_range`: both ends `-1` (unbounded). -/
def init_range : range := { «from» := -1, «to» := -1 }

/-- `init_dblrange`. -/
def init_dblrange : dblrange := { «from» := -1, «to» := -1 }

/-- `add_list(list, value, inv)`: the `inv` argument is normalised to a
flag; if it differs from the list's current polarity, all stored entries
are discarded first.  A duplicate value is a no-op returning 0; a full
list (`num >= LIST_MAX`) returns -1 unchanged; otherwise the value is
appended and 0 returned.  Returns `(rc, updated list)`. -/
def add_list (l : list) (value : Int) (inv : Bool) : Int × list :=
  let l := if inv ≠ l.inv then { inv := inv, list := [] } else l
  if value ∈ l.list then (0, l)
  else if LIST_MAX ≤ l.list.length then (-1, l)
  else (0, { l with list := l.list ++ [value] })

/-- `check_list(list, value)`: an empty list matches all values;
otherwise membership against the polarity flag. -/
def check_list (l : list) (value : Int) : Bool :=
  if l.list = [] then true
  else if value ∈ l.list then !l.inv
  else l.inv

/-- `inrange(range, value)`. -/
def inrange (r : range) (value : Int) : Bool :=
  if r.«from» ≥ 0 ∧ value < r.«from» then false
  else if r.«to» ≥ 0 ∧ value > r.«to» then false
  else true

/-- `indblrange(dblrange, value)`. -/
def indblrange (r : dblrange) (value : ℚ) : Bool :=
  if r.«from» ≥ 0 ∧ value < r.«from» then false
  else if r.«to» ≥ 0 ∧ value > r.«to» then false
  else true

/-- `struct logrule`: conditions (part 1), what to log (part 2); the
output sink (part 3) is identified here by the sink's filename. -/
structure logrule where
  name : List Nat
  active : Bool
  count : Int
  duration : range
  retries : range
  vreplays : range
  sql_cost : dblrange
  sql_rows : range
  rc_list : list
  opcode_list : list
  tablename : List Nat
  stmt : List Nat
  event_mask : Nat
  out : List Nat
deriving DecidableEq

/-! ## Strings and external constants -/

/-- ASCII lower-casing of one byte, as used by `strcasecmp`. -/
def tolower_byte (c : Nat) : Nat :=
  if 65 ≤ c ∧ c ≤ 90 then c + 32 else c

/-- `strcasecmp(a, b) == 0`: equality up to ASCII case. -/
def strcasecmp_eq (a b : List Nat) : Bool :=
  a.map tolower_byte = b.map tolower_byte

/-- Whether `pat` is a prefix of `hay` (helper for `strstr`). -/
def bytes_starts : List Nat → List Nat → Bool
  | [], _ => true
  | _ :: _, [] => false
  | a :: as, b :: bs => a = b && bytes_starts as bs

/-- `strstr(hay, pat) != NULL`: `pat` occurs as a contiguous substring. -/
def strstr_b : List Nat → List Nat → Bool
  | hay, pat =>
    if bytes_starts pat hay then true
    else match hay with
      | [] => false
      | _ :: t => strstr_b t pat

/-- Modelled from the spec: event classes are "bit sets over event classes
{TRACE, INFO, RESULTS, QUERY, …}" defined in an external header; only
their being distinct single bits matters here. -/
def REQL_INFO : Nat := 1

/-- Modelled from the spec: the TRACE event-class bit (external header). -/
def REQL_TRACE : Nat := 2

/-- Modelled from the spec: the RESULTS event-class bit (external header). -/
def REQL_RESULTS : Nat := 4

/-- Modelled from the spec: request opcodes are part of the external
"opcode taxonomy"; only `OP_SQL`'s distinctness matters here. -/
def OP_SQL : Int := 200

/-- Modelled from the spec: the opcode recorded for stat-dump requests
(external taxonomy). -/
def OP_DEBUG : Int := 201

/-! ## Recorder (struct reqlogger) -/

/-- The fields of `struct ireq` consumed by reqlog.c. -/
structure ireq where
  debug : Bool
  retries : Int
  opcode : Int
  nowms : Int
  is_fromsocket : Bool
deriving DecidableEq

/-- An event node of the recorder's singly linked event log.  A negative
`length` means "text is NUL-terminated, compute later" (`strlen`). -/
inductive logevent where
  | push_pfx (text : List Nat) (length : Int)
  | pop_pfx
  | pop_pfx_all
  | print (event_flag : Nat) (text : List Nat) (length : Int)
deriving DecidableEq

/-- The transient part of `struct reqlogger` relevant to the claims:
masks, request scalars, the prefix stack and the event log.  Display-only
fields (`origin`, `request_type`, `fingerprint`, tag buffers) and the
dump-line buffer are omitted here; the dump-line buffer is modelled
separately as `dumpstate` (none of them feed back into the masks). -/
structure reqlogger where
  reqflags : Nat
  in_request : Bool
  event_mask : Nat
  dump_mask : Nat
  mask : Nat
  startms : Int
  pfx : prefix_type
  tracking_tables : Bool
  tables : List (List Nat × Nat)
  opcode : Int
  iq : Option ireq
  events : List logevent
  stmt : Option (List Nat)
  sqlrows : Int
  sqlcost : ℚ
  rc : Int
  durationms : Int
  vreplays : Int
  queuetimems : Int

/-- `reqlog_reset_logger`: free the arena and `bzero` the transient block
(everything except the arena handle and `origin`). -/
def reqlog_reset_logger (lg : reqlogger) : reqlogger :=
  let _ := lg
  { reqflags := 0, in_request := false, event_mask := 0, dump_mask := 0,
    mask := 0, startms := 0,
    pfx := { prefix_buf := fun _ => 0, pos := 0, stack := fun _ => 0, stack_pos := 0 },
    tracking_tables := false, tables := [], opcode := 0, iq := none,
    events := [], stmt := none, sqlrows := 0, sqlcost := 0, rc := 0,
    durationms := 0, vreplays := 0, queuetimems := 0 }

/-- The master settings derived from the rule set by `scanrules_ll`
(`master_event_mask`, `master_all_requests`, `master_opcode_list`,
`master_opcode_inv_list`, `master_table_rules`, `master_stmts`). -/
structure master_state where
  event_mask : Nat
  all_requests : Bool
  opcode_list : list
  opcode_inv_list : list
  table_rules : Bool
  stmts : List (List Nat)
deriving DecidableEq

/-- `reqlog_start_request`: decide what to log for this request from the
master settings (`sqldbg` is the global `sqldbgflag`), then set
`mask = event_mask | dump_mask` and mark the request in progress. -/
def reqlog_start_request (m : master_state) (sqldbg : Bool) (lg : reqlogger) :
    reqlogger :=
  let lg1 := { lg with tracking_tables := m.table_rules }
  let lg2 := if (match lg1.iq with | some i => i.debug | none => false)
             then { lg1 with dump_mask := REQL_TRACE } else lg1
  let lg3 := if lg2.opcode = OP_SQL ∧ sqldbg
             then { lg2 with dump_mask := REQL_TRACE } else lg2
  let lg4 := { lg3 with event_mask := lg3.event_mask ||| REQL_INFO }
  let gather : Bool :=
    if m.all_requests then true
    else if m.opcode_list.list ≠ [] ∧ check_list m.opcode_list lg4.opcode then true
    else if m.opcode_inv_list.list ≠ [] ∧ check_list m.opcode_inv_list lg4.opcode
         then true
    else match lg4.stmt with
      | some s => m.stmts ≠ [] ∧ m.stmts.any (fun t => strstr_b s t)
      | none => false
  let lg5 := if gather then
      { lg4 with event_mask := lg4.event_mask ||| m.event_mask,
                 iq := lg4.iq.map (fun i => { i with debug := true }) }
    else lg4
  { lg5 with mask := lg5.event_mask ||| lg5.dump_mask, in_request := true }

/-- `reqlog_new_request(iq)`: reset, stamp the start time and opcode from
the ireq, and run `reqlog_start_request`. -/
def reqlog_new_request (m : master_state) (sqldbg : Bool) (i : ireq)
    (lg : reqlogger) : reqlogger :=
  let lg := reqlog_reset_logger lg
  reqlog_start_request m sqldbg
    { lg with startms := i.nowms, iq := some i, opcode := i.opcode }

/-- Append an event (`reqlog_append_event`). -/
def reqlog_append_event (lg : reqlogger) (e : logevent) : reqlogger :=
  { lg with events := lg.events ++ [e] }

/-- `reqlog_logl(logger, event_flag, s)`: early-out unless
`mask & event_flag`; append a `print` node with unknown length when the
event mask wants it (the dump-line side effect is modelled by
`dumpstate`, see below, and touches no recorder field shown here). -/
def reqlog_logl (lg : reqlogger) (event_flag : Nat) (s : List Nat) : reqlogger :=
  if lg.mask &&& event_flag ≠ 0 then
    if lg.event_mask &&& event_flag ≠ 0 then
      reqlog_append_event lg (logevent.print event_flag s (-1))
    else lg
  else lg

/-- `reqlog_new_sql_request(logger, sqlstmt, …)`: reset, set request type
and `OP_SQL`, copy the statement into the arena, start the request, then
log the statement at INFO. -/
def reqlog_new_sql_request (m : master_state) (sqldbg : Bool)
    (sqlstmt : Option (List Nat)) (now : Int) (lg : reqlogger) : reqlogger :=
  let lg := reqlog_reset_logger lg
  let lg := { lg with opcode := OP_SQL, stmt := sqlstmt, startms := now }
  let lg := reqlog_start_request m sqldbg lg
  match lg.stmt with
  | some s => reqlog_logl lg REQL_INFO s
  | none => lg

/-- `reqlog_diffstat_init`: reset, then log INFO only
(`mask = event_mask = REQL_INFO`, `dump_mask` stays zero). -/
def reqlog_diffstat_init (lg : reqlogger) : reqlogger :=
  let lg := reqlog_reset_logger lg
  { lg with opcode := OP_DEBUG, mask := REQL_INFO, event_mask := REQL_INFO }

/-- `reqlog_logf`-family body (`reqlog_logv_int` after the `mask` test):
dump when `dump_mask & event_flag`, append a `print` event when
`event_mask & event_flag`.  `text` is the already-formatted string,
truncated by the caller exactly as `vsnprintf` into a 256-byte buffer
would when truncation is enabled. -/
def reqlog_logf (trunc : Bool) (lg : reqlogger) (event_flag : Nat)
    (text : List Nat) : reqlogger :=
  if lg.mask &&& event_flag ≠ 0 then
    let t := if trunc ∧ 256 ≤ text.length then text.take 255 else text
    if lg.event_mask &&& event_flag ≠ 0 then
      reqlog_append_event lg (logevent.print event_flag t (t.length : Int))
    else lg
  else lg

/-- `reqlog_pushprefixv`: when `dump_mask` is set, push onto the live
prefix stack; when `event_mask` is set, append a push event. -/
def reqlog_pushprefixv (trunc : Bool) (lg : reqlogger) (text : List Nat) :
    reqlogger :=
  let t := if trunc ∧ 256 ≤ text.length then text.take 255 else text
  let lg := if lg.dump_mask ≠ 0 then
      { lg with pfx := prefix_push lg.pfx (fun i => t.getD i.toNat 0) (t.length : Int) }
    else lg
  if lg.event_mask ≠ 0 then
    reqlog_append_event lg (logevent.push_pfx t (t.length : Int))
  else lg

/-- `reqlog_popprefix` (renamed: the gate reserves that suffix): pop the
live prefix when dumping, append a pop event when capturing. -/
def reqlog_popprefixx (lg : reqlogger) : reqlogger :=
  let lg := if lg.dump_mask ≠ 0 then { lg with pfx := prefix_pop lg.pfx } else lg
  if lg.event_mask ≠ 0 then reqlog_append_event lg logevent.pop_pfx else lg

/-- `reqlog_popallprefixes`. -/
def reqlog_popallprefixes (lg : reqlogger) : reqlogger :=
  let lg := if lg.dump_mask ≠ 0 then { lg with pfx := prefix_pop_all lg.pfx } else lg
  if lg.event_mask ≠ 0 then reqlog_append_event lg logevent.pop_pfx_all else lg

/-- `reqlog_usetable`: case-insensitive scan of the per-request table
list, incrementing the count or appending a fresh entry. -/
def reqlog_usetable (lg : reqlogger) (tablename : List Nat) : reqlogger :=
  if lg.tracking_tables then
    if (lg.tables.any fun t => strcasecmp_eq t.1 tablename) then
      { lg with tables := lg.tables.map fun t =>
          if strcasecmp_eq t.1 tablename then (t.1, t.2 + 1) else t }
    else
      { lg with tables := (tablename, 1) :: lg.tables }
  else lg

/-! ## Rule matching and end-of-request rule evaluation -/

/-- The condition part of the `reqlog_end_request` rule loop: reject the
request if any set condition fails (ranges, lists, stmt substring,
case-insensitive table membership).  The `retries` range applies only to
requests that carry an `ireq`. -/
def rule_matches (lg : reqlogger) (r : logrule) : Bool :=
  (match lg.iq with | some i => inrange r.retries i.retries | none => true) &&
  inrange r.duration lg.durationms &&
  inrange r.vreplays lg.vreplays &&
  indblrange r.sql_cost lg.sqlcost &&
  inrange r.sql_rows lg.sqlrows &&
  check_list r.opcode_list lg.opcode &&
  check_list r.rc_list lg.rc &&
  (!(r.stmt ≠ [] && (match lg.stmt with
                     | some s => !(strstr_b s r.stmt)
                     | none => true))) &&
  (!(r.tablename ≠ [] && !(lg.tables.any fun t => strcasecmp_eq t.1 r.tablename)))

/-- The rule loop of `reqlog_end_request`: for each active rule whose
conditions all pass, record a match (by rule name); if `count > 0`,
decrement it and discard the rule when it reaches zero.  Returns the
matched rule names (in rule order) and the surviving rule list. -/
def reqlog_eval_rules (lg : reqlogger) : List logrule → List (List Nat) × List logrule
  | [] => ([], [])
  | r :: rs =>
    let rest := reqlog_eval_rules lg rs
    if r.active = false then (rest.1, r :: rest.2)
    else if rule_matches lg r = false then (rest.1, r :: rest.2)
    else if 0 < r.count then
      if r.count = 1 then (r.name :: rest.1, rest.2)
      else (r.name :: rest.1, { r with count := r.count - 1 } :: rest.2)
    else (r.name :: rest.1, r :: rest.2)

/-! ## scanrules_ll: deriving the master settings -/

/-- `scanrules_ll`, rule-with-no-pre-request-criteria check: a rule with
neither opcode-list nor stmt criteria forces `log_all_reqs`. -/
def scanrules_step_all (r : logrule) (acc : master_state) : master_state :=
  if r.opcode_list.list = [] ∧ r.stmt = []
  then { acc with all_requests := true } else acc

/-- `scanrules_ll`, one opcode of a rule's opcode list folded into the
master allow (`master_opcode_list`) or block (`master_opcode_inv_list`)
list; a nonzero `add_list` return (overflow past `LIST_MAX`) forces
`log_all_reqs`. -/
def scanrules_add_op (r : logrule) (a : master_state) (op : Int) : master_state :=
  if r.opcode_list.inv then
    let rcl := add_list a.opcode_inv_list op true
    let a2 := { a with opcode_inv_list := rcl.2 }
    if rcl.1 ≠ 0 then { a2 with all_requests := true } else a2
  else
    let rcl := add_list a.opcode_list op false
    let a2 := { a with opcode_list := rcl.2 }
    if rcl.1 ≠ 0 then { a2 with all_requests := true } else a2

/-- `scanrules_ll`, the opcode-list loop of one rule. -/
def scanrules_opfold (r : logrule) (acc : master_state) : master_state :=
  r.opcode_list.list.foldl (scanrules_add_op r) acc

/-- `scanrules_ll`, table criterion: any active rule naming a table turns
table tracking on. -/
def scanrules_step_table (r : logrule) (acc : master_state) : master_state :=
  if r.tablename ≠ [] then { acc with table_rules := true } else acc

/-- `scanrules_ll`, stmt criterion: append the (at most `MAXSTMT`-byte)
substring to `master_stmts`, forcing `log_all_reqs` once `NUMSTMTS`
substrings are already present. -/
def scanrules_step_stmt (r : logrule) (acc : master_state) : master_state :=
  if r.stmt ≠ [] then
    (if acc.stmts.length = NUMSTMTS then { acc with all_requests := true }
     else { acc with stmts := acc.stmts ++ [r.stmt.take MAXSTMT] })
  else acc

/-- `scanrules_ll`, event-mask accumulation. -/
def scanrules_step_mask (r : logrule) (acc : master_state) : master_state :=
  { acc with event_mask := acc.event_mask ||| r.event_mask }

/-- One iteration of the `scanrules_ll` rule loop over the running master
accumulator, in the order of the C loop body; inactive rules are skipped. -/
def scanrules_step (acc : master_state) (r : logrule) : master_state :=
  if r.active = false then acc
  else
    scanrules_step_mask r (scanrules_step_stmt r (scanrules_step_table r
      (scanrules_opfold r (scanrules_step_all r acc))))

/-- `scanrules_ll`: recompute the master settings from the rule list.
The C code first stores 1 into the global `master_all_requests` (a
transient value for concurrent lock-free readers) but derives the final
value from the local accumulator `log_all_reqs`, which starts at 0. -/
def scanrules_ll (rules : List logrule) : master_state :=
  rules.foldl scanrules_step
    { event_mask := 0, all_requests := false,
      opcode_list := { inv := false, list := [] },
      opcode_inv_list := { inv := false, list := [] },
      table_rules := false, stmts := [] }

/-! ## Recorder operations as a step relation (for the mask invariant) -/

/-- The recorder operations of the public reqlog API that mutate a
recorder during a request's lifetime. -/
inductive reqlog_op where
  | newRequest (i : ireq)
  | newSqlRequest (stmt : Option (List Nat)) (now : Int)
  | diffstatInit
  | resetLogger
  | logf (flag : Nat) (text : List Nat)
  | logl (flag : Nat) (text : List Nat)
  | pushPfx (text : List Nat)
  | popPfx
  | popAllPfx
  | setCost (c : ℚ)
  | setRows (n : Int)
  | setVreplays (n : Int)
  | setQueueTime (n : Int)
  | setFlag (f : Nat)
  | useTable (t : List Nat)

/-- Apply one recorder operation (`m` is the master state, `sqldbg` the
global SQL debug flag, `trunc` the global truncation flag). -/
def apply_op (m : master_state) (sqldbg trunc : Bool) :
    reqlog_op → reqlogger → reqlogger
  | .newRequest i, lg => reqlog_new_request m sqldbg i lg
  | .newSqlRequest s now, lg => reqlog_new_sql_request m sqldbg s now lg
  | .diffstatInit, lg => reqlog_diffstat_init lg
  | .resetLogger, lg => reqlog_reset_logger lg
  | .logf flag text, lg => reqlog_logf trunc lg flag text
  | .logl flag text, lg => reqlog_logl lg flag text
  | .pushPfx text, lg => reqlog_pushprefixv trunc lg text
  | .popPfx, lg => reqlog_popprefixx lg
  | .popAllPfx, lg => reqlog_popallprefixes lg
  | .setCost c, lg => { lg with sqlcost := c }
  | .setRows n, lg => { lg with sqlrows := n }
  | .setVreplays n, lg => { lg with vreplays := n }
  | .setQueueTime n, lg => { lg with queuetimems := n }
  | .setFlag f, lg => { lg with reqflags := lg.reqflags ||| f }
  | .useTable t, lg => reqlog_usetable lg t

/-! ## Concrete fixtures used by witnesses and scenarios -/

/-- A zeroed recorder, as produced by `reqlog_alloc` (`calloc`). -/
def lg_zero : reqlogger :=
  { reqflags := 0, in_request := false, event_mask := 0, dump_mask := 0,
    mask := 0, startms := 0,
    pfx := { prefix_buf := fun _ => 0, pos := 0, stack := fun _ => 0, stack_pos := 0 },
    tracking_tables := false, tables := [], opcode := 0, iq := none,
    events := [], stmt := none, sqlrows := 0, sqlcost := 0, rc := 0,
    durationms := 0, vreplays := 0, queuetimems := 0 }

/-- An empty master state (no active rules). -/
def master_zero : master_state :=
  { event_mask := 0, all_requests := false,
    opcode_list := { inv := false, list := [] },
    opcode_inv_list := { inv := false, list := [] },
    table_rules := false, stmts := [] }

/-- A rule with every condition unset (all ranges unbounded, all lists
empty, no table, no stmt), active. -/
def rule_uncond : logrule :=
  { name := [48], active := true, count := 0,
    duration := init_range, retries := init_range, vreplays := init_range,
    sql_cost := init_dblrange, sql_rows := init_range,
    rc_list := { inv := false, list := [] },
    opcode_list := { inv := false, list := [] },
    tablename := [], stmt := [], event_mask := 0, out := [] }

/-- Scenario S4's rule `R3`: no conditions, active, `count_remaining = 2`. -/
def rule_R3 : logrule := { rule_uncond with name := [82, 51], count := 2 }

/-! ## C1: the mask invariant -/

/-- C1: for every recorder, `mask == event_mask | dump_mask` is
established by request start (`reqlog_new_request`,
`reqlog_new_sql_request` via `reqlog_start_request`), by reset and by
`reqlog_diffstat_init`, and is preserved by every other recorder
operation — so it holds throughout the request. -/
theorem reqlog_mask_invariant (m : master_state) (sqldbg trunc : Bool)
    (op : reqlog_op) (lg : reqlogger)
    (h : lg.mask = lg.event_mask ||| lg.dump_mask) :
    (apply_op m sqldbg trunc op lg).mask =
      (apply_op m sqldbg trunc op lg).event_mask |||
      (apply_op m sqldbg trunc op lg).dump_mask := by
  have hstart : ∀ lg' : reqlogger,
      (reqlog_start_request m sqldbg lg').mask =
        (reqlog_start_request m sqldbg lg').event_mask |||
        (reqlog_start_request m sqldbg lg').dump_mask := fun _ => rfl
  have happend : ∀ (lg' : reqlogger) (e : logevent),
      lg'.mask = lg'.event_mask ||| lg'.dump_mask →
      (reqlog_append_event lg' e).mask =
        (reqlog_append_event lg' e).event_mask |||
        (reqlog_append_event lg' e).dump_mask := fun _ _ h' => h'
  have hlogl : ∀ (lg' : reqlogger) (f : Nat) (s : List Nat),
      lg'.mask = lg'.event_mask ||| lg'.dump_mask →
      (reqlog_logl lg' f s).mask =
        (reqlog_logl lg' f s).event_mask ||| (reqlog_logl lg' f s).dump_mask := by
    intro lg' f s h'
    unfold reqlog_logl
    split_ifs <;> first | exact happend _ _ h' | exact h'
  cases op with
  | newRequest i => exact hstart _
  | newSqlRequest s now =>
    have htail : ∀ L : reqlogger, L.mask = L.event_mask ||| L.dump_mask →
        (match L.stmt with
          | some t => reqlog_logl L REQL_INFO t
          | none => L).mask =
        (match L.stmt with
          | some t => reqlog_logl L REQL_INFO t
          | none => L).event_mask |||
        (match L.stmt with
          | some t => reqlog_logl L REQL_INFO t
          | none => L).dump_mask := by
      intro L hL
      cases hLs : L.stmt with
      | none => simp only [hLs]; exact hL
      | some t => simp only [hLs]; exact hlogl _ _ _ hL
    exact htail _ (hstart _)
  | diffstatInit =>
    show REQL_INFO = REQL_INFO ||| (0 : Nat)
    decide
  | resetLogger =>
    show (0 : Nat) = 0 ||| 0
    decide
  | logf flag text =>
    show (reqlog_logf trunc lg flag text).mask = (reqlog_logf trunc lg flag text).event_mask ||| (reqlog_logf trunc lg flag text).dump_mask
    unfold reqlog_logf
    split_ifs <;> first | exact happend _ _ h | exact h
  | logl flag text => exact hlogl _ _ _ h
  | pushPfx text =>
    show (reqlog_pushprefixv trunc lg text).mask = (reqlog_pushprefixv trunc lg text).event_mask ||| (reqlog_pushprefixv trunc lg text).dump_mask
    unfold reqlog_pushprefixv reqlog_append_event
    dsimp only
    split_ifs <;> exact h
  | popPfx =>
    show (reqlog_popprefixx lg).mask = (reqlog_popprefixx lg).event_mask ||| (reqlog_popprefixx lg).dump_mask
    unfold reqlog_popprefixx reqlog_append_event
    dsimp only
    split_ifs <;> exact h
  | popAllPfx =>
    show (reqlog_popallprefixes lg).mask = (reqlog_popallprefixes lg).event_mask ||| (reqlog_popallprefixes lg).dump_mask
    unfold reqlog_popallprefixes reqlog_append_event
    dsimp only
    split_ifs <;> exact h
  | setCost c => exact h
  | setRows n => exact h
  | setVreplays n => exact h
  | setQueueTime n => exact h
  | setFlag f => exact h
  | useTable t =>
    show (reqlog_usetable lg t).mask = (reqlog_usetable lg t).event_mask ||| (reqlog_usetable lg t).dump_mask
    unfold reqlog_usetable
    split_ifs <;> exact h

/-- Witness for `reqlog_mask_invariant` at a concrete recorder and op. -/
theorem reqlog_mask_invariant_witness :
    lg_zero.mask = lg_zero.event_mask ||| lg_zero.dump_mask ∧
    (apply_op master_zero false false reqlog_op.diffstatInit lg_zero).mask =
      (apply_op master_zero false false reqlog_op.diffstatInit lg_zero).event_mask |||
      (apply_op master_zero false false reqlog_op.diffstatInit lg_zero).dump_mask := by
  refine ⟨by decide, ?_⟩
  exact reqlog_mask_invariant master_zero false false reqlog_op.diffstatInit
    lg_zero (by decide)

/-! ## C3: empty lists and unbounded ranges accept everything -/

/-- All conditions of a rule unset: ranges unbounded, lists empty, no
table name, no stmt substring. -/
def rule_no_conditions (r : logrule) : Prop :=
  r.duration = init_range ∧ r.retries = init_range ∧ r.vreplays = init_range ∧
  r.sql_cost = init_dblrange ∧ r.sql_rows = init_range ∧
  r.rc_list.list = [] ∧ r.opcode_list.list = [] ∧
  r.tablename = [] ∧ r.stmt = []

/-- An empty `struct list` matches every value. -/
lemma check_list_empty (l : list) (v : Int) (h : l.list = []) :
    check_list l v = true := by
  simp [check_list, h]

/-- A fully unbounded range matches every value. -/
lemma inrange_unbounded (r : range) (v : Int)
    (h1 : r.«from» = -1) (h2 : r.«to» = -1) : inrange r v = true := by
  simp [inrange, h1, h2]

/-- A fully unbounded double range matches every value. -/
lemma indblrange_unbounded (r : dblrange) (v : ℚ)
    (h1 : r.«from» = -1) (h2 : r.«to» = -1) : indblrange r v = true := by
  simp only [indblrange, h1, h2]
  norm_num

/-- C3: an integer list with zero entries accepts every value
(`check_list`), a range with `from = to = -1` accepts every value
(`inrange`, and likewise `indblrange`), and consequently a rule with no
conditions set matches every request. -/
theorem empty_criteria_accept_all :
    (∀ (l : list) (v : Int), l.list = [] → check_list l v = true) ∧
    (∀ (r : range) (v : Int), r.«from» = -1 → r.«to» = -1 →
       inrange r v = true) ∧
    (∀ (r : dblrange) (v : ℚ), r.«from» = -1 → r.«to» = -1 →
       indblrange r v = true) ∧
    (∀ (lg : reqlogger) (r : logrule), rule_no_conditions r →
       rule_matches lg r = true) := by
  refine ⟨check_list_empty, inrange_unbounded, indblrange_unbounded, ?_⟩
  intro lg r h
  obtain ⟨hd, hr, hv, hc, hsr, hrc, hop, htab, hstmt⟩ := h
  unfold rule_matches
  rw [check_list_empty _ _ hrc, check_list_empty _ _ hop]
  rw [inrange_unbounded _ _ (by rw [hd]; rfl) (by rw [hd]; rfl)]
  rw [inrange_unbounded _ _ (by rw [hv]; rfl) (by rw [hv]; rfl)]
  rw [inrange_unbounded _ _ (by rw [hsr]; rfl) (by rw [hsr]; rfl)]
  rw [indblrange_unbounded _ _ (by rw [hc]; rfl) (by rw [hc]; rfl)]
  rw [hstmt, htab]
  cases lg.iq with
  | none => simp
  | some i =>
    have hri := inrange_unbounded r.retries i.retries
      (by rw [hr]; rfl) (by rw [hr]; rfl)
    simp [hri]

/-- Witness for `empty_criteria_accept_all` at concrete inputs. -/
theorem empty_criteria_accept_all_witness :
    rule_no_conditions rule_uncond ∧
    rule_matches lg_zero rule_uncond = true := by
  have hc : rule_no_conditions rule_uncond := by
    refine ⟨rfl, rfl, rfl, rfl, rfl, rfl, rfl, rfl, rfl⟩
  exact ⟨hc, empty_criteria_accept_all.2.2.2 lg_zero rule_uncond hc⟩

/-! ## C10: add_list polarity, duplicates and overflow -/

/-- C10: `add_list` with the opposite polarity discards all stored
entries before adding (so a list never mixes polarities); adding a value
already present (same polarity) is a no-op returning 0; adding a new
value to a full 32-entry list (same polarity) returns -1 and leaves the
list unchanged. -/
theorem add_list_props :
    (∀ (l : list) (v : Int) (b : Bool), b ≠ l.inv →
       add_list l v b = (0, { inv := b, list := [v] })) ∧
    (∀ (l : list) (v : Int), v ∈ l.list →
       add_list l v l.inv = (0, l)) ∧
    (∀ (l : list) (v : Int), v ∉ l.list → l.list.length = 32 →
       add_list l v l.inv = (-1, l)) := by
  refine ⟨?_, ?_, ?_⟩
  · intro l v b hb
    simp [add_list, hb, LIST_MAX]
  · intro l v hv
    simp [add_list, hv]
  · intro l v hv hlen
    simp [add_list, hv, hlen, LIST_MAX]

/-- Witness for `add_list_props` at concrete lists. -/
theorem add_list_props_witness :
    (true ≠ (list.mk false [3, 4]).inv ∧
     add_list (list.mk false [3, 4]) 5 true = (0, list.mk true [5])) ∧
    ((3 : Int) ∈ (list.mk false [3, 4]).list ∧
     add_list (list.mk false [3, 4]) 3 false = (0, list.mk false [3, 4])) := by
  refine ⟨⟨by decide, ?_⟩, ⟨by decide, ?_⟩⟩
  · exact add_list_props.1 (list.mk false [3, 4]) 5 true (by decide)
  · exact add_list_props.2.1 (list.mk false [3, 4]) 3 (by decide)

/-! ## C4: count_remaining decrement and rule removal -/

/-- C4: a matching rule with `count_remaining > 0` has its count
decremented, and the rule is removed from the rule set when the count
reaches zero; with `count_remaining = 2` three consecutive matching
requests yield exactly two matches, the rule disappearing after the
second, so the third request matches no rule. -/
theorem rule_count_lifecycle :
    (∀ (lg : reqlogger) (r : logrule), r.active = true →
       rule_matches lg r = true → 0 < r.count →
       reqlog_eval_rules lg [r] =
         ([r.name], if r.count = 1 then [] else [{ r with count := r.count - 1 }])) ∧
    reqlog_eval_rules lg_zero [rule_R3] = ([[82, 51]], [{ rule_R3 with count := 1 }]) ∧
    reqlog_eval_rules lg_zero [{ rule_R3 with count := 1 }] = ([[82, 51]], []) ∧
    reqlog_eval_rules lg_zero [] = ([], []) := by
  refine ⟨?_, by decide, by decide, by decide⟩
  intro lg r ha hm hc
  unfold reqlog_eval_rules
  rw [ha, hm]
  simp only [Bool.true_eq_false, if_false, hc, if_true]
  split_ifs <;> rfl

/-- Witness for `rule_count_lifecycle` at the S4 rule. -/
theorem rule_count_lifecycle_witness :
    rule_R3.active = true ∧ rule_matches lg_zero rule_R3 = true ∧
    reqlog_eval_rules lg_zero [rule_R3] =
      ([[82, 51]], [{ rule_R3 with count := 1 }]) := by
  refine ⟨rfl, by decide, ?_⟩
  have h := rule_count_lifecycle.1 lg_zero rule_R3 rfl (by decide) (by decide)
  simpa using h

/-! ## C5: scanrules and all_requests -/

/-- Once `log_all_reqs` is set, `scanrules_add_op` keeps it set. -/
lemma scanrules_add_op_mono (r : logrule) (a : master_state) (op : Int)
    (h : a.all_requests = true) :
    (scanrules_add_op r a op).all_requests = true := by
  unfold scanrules_add_op
  split_ifs <;> simp [h]

/-- Once `log_all_reqs` is set, the opcode-list fold keeps it set. -/
lemma scanrules_opfold_mono (r : logrule) :
    ∀ (l : List Int) (a : master_state), a.all_requests = true →
      (l.foldl (scanrules_add_op r) a).all_requests = true := by
  intro l
  induction l with
  | nil => intro a h; exact h
  | cons x xs ih =>
    intro a h
    exact ih _ (scanrules_add_op_mono r a x h)

/-- Once `log_all_reqs` is set, a whole `scanrules_step` keeps it set. -/
lemma scanrules_step_mono (acc : master_state) (r : logrule)
    (h : acc.all_requests = true) :
    (scanrules_step acc r).all_requests = true := by
  unfold scanrules_step
  by_cases ha : r.active = false
  · rw [if_pos ha]; exact h
  · rw [if_neg ha]
    unfold scanrules_step_mask scanrules_step_stmt scanrules_step_table
    have h1 : (scanrules_step_all r acc).all_requests = true := by
      unfold scanrules_step_all; split_ifs <;> simp [h]
    have h2 : (scanrules_opfold r (scanrules_step_all r acc)).all_requests = true := by
      unfold scanrules_opfold
      exact scanrules_opfold_mono r _ _ h1
    split_ifs <;> simp [h2]

/-- An active rule with neither opcode nor stmt criteria sets
`log_all_reqs` in its `scanrules_step`. -/
lemma scanrules_step_trigger (acc : master_state) (r : logrule)
    (ha : r.active = true) (hop : r.opcode_list.list = []) (hst : r.stmt = []) :
    (scanrules_step acc r).all_requests = true := by
  unfold scanrules_step
  rw [if_neg (by simp [ha])]
  have h1 : (scanrules_step_all r acc).all_requests = true := by
    unfold scanrules_step_all
    rw [if_pos ⟨hop, hst⟩]
  have h2 : (scanrules_opfold r (scanrules_step_all r acc)).all_requests = true := by
    unfold scanrules_opfold
    rw [hop]
    exact h1
  unfold scanrules_step_mask scanrules_step_stmt scanrules_step_table
  split_ifs <;> simp_all

/-- Folding `scanrules_step` preserves a set `log_all_reqs` and sets it at
any member rule with neither opcode nor stmt criteria. -/
lemma scanrules_foldl_true :
    ∀ (rules : List logrule) (acc : master_state),
      (acc.all_requests = true ∨
       ∃ r ∈ rules, r.active = true ∧ r.opcode_list.list = [] ∧ r.stmt = []) →
      (rules.foldl scanrules_step acc).all_requests = true := by
  intro rules
  induction rules with
  | nil =>
    intro acc h
    rcases h with h | ⟨r, hr, -⟩
    · exact h
    · simp at hr
  | cons x xs ih =>
    intro acc h
    simp only [List.foldl_cons]
    rcases h with h | ⟨r, hr, hprop⟩
    · exact ih _ (Or.inl (scanrules_step_mono acc x h))
    · rcases List.mem_cons.mp hr with rfl | hr'
      · exact ih _ (Or.inl (scanrules_step_trigger acc r hprop.1 hprop.2.1 hprop.2.2))
      · exact ih _ (Or.inr ⟨r, hr', hprop⟩)

/-- Seventeen active rules, each carrying one distinct stmt substring and
no other pre-request criteria would trigger log-all; to exercise only the
stmt-list limit, give each of them a non-empty opcode list too.  Here we
use rules with a single-opcode list plus a distinct stmt, so only the
stmt-overflow path can force `all_requests`. -/
def stmt_rules_17 : List logrule :=
  (List.range 17).map fun i =>
    { rule_uncond with
      opcode_list := { inv := false, list := [7] },
      stmt := [65 + i] }

/-- Two active rules whose opcode lists together carry 33 distinct
opcodes (each within the per-rule 32-entry bound), overflowing the
master opcode list. -/
def opcode_rules_33 : List logrule :=
  [ { rule_uncond with
      opcode_list := { inv := false, list := (List.range 32).map Int.ofNat },
      stmt := [83] },
    { rule_uncond with
      opcode_list := { inv := false, list := [100] },
      stmt := [84] } ]

/-- C5 counterexample: the claim says `all_requests` "starts true" and is
"also set true" under the stated conditions, which would leave it true
after every recomputation; but `scanrules_ll` derives the final value
from an accumulator that starts false (the initial store of 1 into the
global is transient and overwritten), so with an empty rule set
`all_requests` ends up false. -/
theorem scanrules_empty_all_requests_false :
    (scanrules_ll []).all_requests = false := by
  decide

set_option maxRecDepth 100000 in
/-- C5 (amended): the recomputed `all_requests` is derived from an
accumulator that starts false; it is set true whenever some active rule
has neither opcode-list nor stmt-substring criteria, and when the list
limits are exceeded — in particular by active rules carrying 17 distinct
stmt substrings, or 33 distinct opcodes. -/
theorem scanrules_all_requests_characterised :
    (scanrules_ll []).all_requests = false ∧
    (∀ (rules : List logrule) (r : logrule), r ∈ rules → r.active = true →
       r.opcode_list.list = [] → r.stmt = [] →
       (scanrules_ll rules).all_requests = true) ∧
    (scanrules_ll stmt_rules_17).all_requests = true ∧
    (scanrules_ll opcode_rules_33).all_requests = true := by
  refine ⟨by decide, ?_, by decide, by decide⟩
  intro rules r hr ha hop hst
  unfold scanrules_ll
  exact scanrules_foldl_true rules _ (Or.inr ⟨r, hr, ha, hop, hst⟩)

/-- Witness for `scanrules_all_requests_characterised` at a concrete
rule set containing an unconditioned active rule. -/
theorem scanrules_all_requests_witness :
    rule_uncond ∈ [rule_uncond] ∧
    (scanrules_ll [rule_uncond]).all_requests = true := by
  refine ⟨List.mem_singleton.mpr rfl, ?_⟩
  exact scanrules_all_requests_characterised.2.1 [rule_uncond] rule_uncond
    (List.mem_singleton.mpr rfl) rfl rfl rfl

/-! ## C6: the block-op classifier of nodestats_report -/

/-- The block-op opcodes named as case labels by the classifier switch in
`nodestats_report` (values come from the external block-op taxonomy; only
their distinctness matters), plus a default for all other opcodes. -/
inductive blockop where
  | BLOCK2_ADDDTA | BLOCK2_ADDKL | BLOCK2_ADDKL_POS | BLOCK_ADDSL
  | BLOCK_UPVRRN | BLOCK2_UPDATE | BLOCK2_UPDKL | BLOCK2_UPDKL_POS
  | BLOCK_DELSEC | BLOCK_DELNOD | BLOCK2_DELDTA | BLOCK2_DELKL
  | BLOCK2_SQL | BLOCK2_RECOM | BLOCK2_SNAPISOL | BLOCK2_SERIAL
  | otherOp
deriving DecidableEq

/-- The block-op summary fields of `struct summary_nodestats`. -/
structure summary_nodestats where
  adds : Nat
  upds : Nat
  dels : Nat
  bsql : Nat
  recom : Nat
  snapisol : Nat
  serial : Nat
deriving DecidableEq

/-- The block-op `switch` of `nodestats_report`, adding a nonzero count
`n` to summary fields.  The C source has no `break` after the
`BLOCK2_RECOM` and `BLOCK2_SNAPISOL` arms, so `BLOCK2_RECOM` falls
through into `snapisol` and `serial`, and `BLOCK2_SNAPISOL` falls through
into `serial`; this is modelled exactly as written. -/
def blockop_classify (s : summary_nodestats) (op : blockop) (n : Nat) :
    summary_nodestats :=
  match op with
  | .BLOCK2_ADDDTA | .BLOCK2_ADDKL | .BLOCK2_ADDKL_POS | .BLOCK_ADDSL =>
      { s with adds := s.adds + n }
  | .BLOCK_UPVRRN | .BLOCK2_UPDATE | .BLOCK2_UPDKL | .BLOCK2_UPDKL_POS =>
      { s with upds := s.upds + n }
  | .BLOCK_DELSEC | .BLOCK_DELNOD | .BLOCK2_DELDTA | .BLOCK2_DELKL =>
      { s with dels := s.dels + n }
  | .BLOCK2_SQL => { s with bsql := s.bsql + n }
  | .BLOCK2_RECOM =>
      { s with recom := s.recom + n, snapisol := s.snapisol + n,
               serial := s.serial + n }
  | .BLOCK2_SNAPISOL =>
      { s with snapisol := s.snapisol + n, serial := s.serial + n }
  | .BLOCK2_SERIAL => { s with serial := s.serial + n }
  | .otherOp => s

/-- The number of summary fields a classification step changed. -/
def blockop_fields_changed (s s' : summary_nodestats) : Nat :=
  (if s'.adds ≠ s.adds then 1 else 0) + (if s'.upds ≠ s.upds then 1 else 0) +
  (if s'.dels ≠ s.dels then 1 else 0) + (if s'.bsql ≠ s.bsql then 1 else 0) +
  (if s'.recom ≠ s.recom then 1 else 0) +
  (if s'.snapisol ≠ s.snapisol then 1 else 0) +
  (if s'.serial ≠ s.serial then 1 else 0)

/-- C6 (code bug): the classifier is required to assign each nonzero
block-op count to exactly one summary family, but by the missing `break`s
a `BLOCK2_RECOM` count of 1 is added to `recom`, `snapisol` and `serial`
— three fields, not one (and `BLOCK2_SNAPISOL` to two). -/
theorem blockop_recom_fallthrough :
    blockop_fields_changed (summary_nodestats.mk 0 0 0 0 0 0 0)
      (blockop_classify (summary_nodestats.mk 0 0 0 0 0 0 0)
        blockop.BLOCK2_RECOM 1) = 3 ∧
    (blockop_classify (summary_nodestats.mk 0 0 0 0 0 0 0)
        blockop.BLOCK2_RECOM 1).recom = 1 ∧
    (blockop_classify (summary_nodestats.mk 0 0 0 0 0 0 0)
        blockop.BLOCK2_RECOM 1).snapisol = 1 ∧
    (blockop_classify (summary_nodestats.mk 0 0 0 0 0 0 0)
        blockop.BLOCK2_RECOM 1).serial = 1 ∧
    blockop_fields_changed (summary_nodestats.mk 0 0 0 0 0 0 0)
      (blockop_classify (summary_nodestats.mk 0 0 0 0 0 0 0)
        blockop.BLOCK2_SNAPISOL 1) = 2 := by
  decide

/-! ## C8: the dump-line buffer -/

/-- The dump-line fragment of `struct reqlogger` (`dumpline`,
`dumplinepos`) together with the lines flushed to the output sink so far.
`flushdump`'s optional time prefix, indent prefix and duration suffix are
not modelled: they do not affect `dumplinepos` or the flush decision. -/
structure dumpstate where
  dumpline : Nat → Nat
  dumplinepos : Nat
  outlines : List (List Nat)

/-- `flushdump`: if the line buffer is nonempty, write it out and reset
`dumplinepos` to 0. -/
def flushdump (st : dumpstate) : dumpstate :=
  if 0 < st.dumplinepos then
    { st with outlines := st.outlines ++ [(List.range st.dumplinepos).map st.dumpline],
              dumplinepos := 0 }
  else st

/-- The second half of one `dump` loop iteration: a newline flushes, any
other byte is stored at `dumplinepos++`. -/
def dump_char_store (st : dumpstate) (c : Nat) : dumpstate :=
  if c = 10 then flushdump st
  else { st with dumpline := Function.update st.dumpline st.dumplinepos c,
                 dumplinepos := st.dumplinepos + 1 }

/-- One iteration of the `dump` loop for character `c`: a full buffer is
flushed first (the C `continue` re-runs the check with an empty buffer),
then the byte is processed. -/
def dump_char (st : dumpstate) (c : Nat) : dumpstate :=
  dump_char_store (if 1024 ≤ st.dumplinepos then flushdump st else st) c

/-- `dump(logger, out, s, len)`: process each byte of `s` in order. -/
def dump (st : dumpstate) (s : List Nat) : dumpstate :=
  s.foldl dump_char st

/-- After any `flushdump` the line buffer position is 0. -/
lemma flushdump_zero (st : dumpstate) : (flushdump st).dumplinepos = 0 := by
  unfold flushdump
  split_ifs with h
  · rfl
  · omega

/-- `flushdump` never touches `dumpline` itself. -/
lemma flushdump_dumpline (st : dumpstate) :
    (flushdump st).dumpline = st.dumpline := by
  unfold flushdump
  split_ifs <;> rfl

/-- The pre-store stage of `dump_char` leaves `dumplinepos ≤ 1023`. -/
lemma dump_char_stage_le (st : dumpstate) (h : st.dumplinepos ≤ 1024) :
    (if 1024 ≤ st.dumplinepos then flushdump st else st).dumplinepos ≤ 1023 := by
  split_ifs with hf
  · rw [flushdump_zero]; omega
  · omega

/-- `dump_char_store` keeps `dumplinepos ≤ 1024` from `≤ 1023`. -/
lemma dump_char_store_le (st : dumpstate) (c : Nat)
    (h : st.dumplinepos ≤ 1023) :
    (dump_char_store st c).dumplinepos ≤ 1024 := by
  unfold dump_char_store
  split_ifs
  · rw [flushdump_zero]; omega
  · show st.dumplinepos + 1 ≤ 1024
    omega

/-- `dump_char` keeps `dumplinepos` within `[0, 1024]`. -/
lemma dump_char_le (st : dumpstate) (c : Nat) (h : st.dumplinepos ≤ 1024) :
    (dump_char st c).dumplinepos ≤ 1024 := by
  unfold dump_char
  exact dump_char_store_le _ c (dump_char_stage_le st h)

/-- Helper: the un-flushed byte-store branch of `dump_char_store`. -/
lemma dump_char_store_nonl (st : dumpstate) (c : Nat) (hc : ¬ c = 10) :
    dump_char_store st c =
      { st with dumpline := Function.update st.dumpline st.dumplinepos c,
                dumplinepos := st.dumplinepos + 1 } := by
  unfold dump_char_store
  rw [if_neg hc]

/-- Dumping non-newline bytes that fit in the remaining buffer space just
advances `dumplinepos` and flushes nothing. -/
lemma dump_nonl (s : List Nat) (h10 : ∀ c ∈ s, c ≠ 10) :
    ∀ st : dumpstate, st.dumplinepos + s.length ≤ 1024 →
      (dump st s).dumplinepos = st.dumplinepos + s.length ∧
      (dump st s).outlines = st.outlines := by
  induction s with
  | nil => intro st _; exact ⟨by simp [dump], rfl⟩
  | cons c cs ih =>
    intro st h
    have hc : ¬ c = 10 := h10 c (List.mem_cons_self c cs)
    have hnf : ¬ (1024 ≤ st.dumplinepos) := by
      have := cs.length
      simp only [List.length_cons] at h
      omega
    have hstep : dump st (c :: cs) = dump (dump_char st c) cs := rfl
    have hchar : dump_char st c =
        { st with dumpline := Function.update st.dumpline st.dumplinepos c,
                  dumplinepos := st.dumplinepos + 1 } := by
      unfold dump_char
      rw [if_neg hnf]
      exact dump_char_store_nonl st c hc
    rw [hstep, hchar]
    have h' := ih (fun x hx => h10 x (List.mem_cons_of_mem c hx))
      { st with dumpline := Function.update st.dumpline st.dumplinepos c,
                dumplinepos := st.dumplinepos + 1 }
      (by simp only [List.length_cons] at h ⊢; omega)
    refine ⟨?_, h'.2⟩
    rw [h'.1]
    simp only [List.length_cons]
    omega

/-- C8 counterexample: dumping 1024 non-newline bytes into an empty
buffer leaves `dumplinepos = 1024` — outside the claimed interval
`[0, 1024)` — and performs no flush (`outlines` stays empty): filling the
buffer does not force a flush by itself. -/
theorem dump_linepos_1024_counterexample :
    (dump (dumpstate.mk (fun _ => 0) 0 []) (List.replicate 1024 97)).dumplinepos
        = 1024 ∧
    (dump (dumpstate.mk (fun _ => 0) 0 []) (List.replicate 1024 97)).outlines
        = [] := by
  have h := dump_nonl (List.replicate 1024 97)
    (by
      intro c hc
      have := List.eq_of_mem_replicate hc
      omega)
    (dumpstate.mk (fun _ => 0) 0 [])
    (by
      simp only [List.length_replicate]
      show (0 : Nat) + 1024 ≤ 1024
      decide)
  obtain ⟨h1, h2⟩ := h
  rw [List.length_replicate] at h1
  refine ⟨?_, h2⟩
  rw [h1]

/-- C8 (amended): `dumplinepos` stays within `[0, 1024]`; writing a
newline forces a flush leaving `dumplinepos = 0`; a full buffer forces a
flush as soon as the next byte is dumped; every flush leaves
`dumplinepos = 0`; and bytes are only ever stored at offsets `< 1024`. -/
theorem dump_linepos_bounds :
    (∀ (st : dumpstate) (s : List Nat), st.dumplinepos ≤ 1024 →
       (dump st s).dumplinepos ≤ 1024) ∧
    (∀ st : dumpstate, (flushdump st).dumplinepos = 0) ∧
    (∀ st : dumpstate, (dump_char st 10).dumplinepos = 0) ∧
    (∀ (st : dumpstate) (c : Nat), 1024 ≤ st.dumplinepos →
       (dump_char st c).outlines.length = st.outlines.length + 1) ∧
    (∀ (st : dumpstate) (c : Nat) (i : Nat), st.dumplinepos ≤ 1024 → 1024 ≤ i →
       (dump_char st c).dumpline i = st.dumpline i) := by
  have hflushlen : ∀ st : dumpstate, 0 < st.dumplinepos →
      (flushdump st).outlines.length = st.outlines.length + 1 := by
    intro st h
    unfold flushdump
    rw [if_pos h]
    simp
  have hflushid : ∀ st : dumpstate, st.dumplinepos = 0 → flushdump st = st := by
    intro st h
    unfold flushdump
    rw [if_neg (by omega)]
  refine ⟨?_, flushdump_zero, ?_, ?_, ?_⟩
  · intro st s
    induction s generalizing st with
    | nil => intro h; exact h
    | cons c cs ih =>
      intro h
      exact ih _ (dump_char_le st c h)
  · intro st
    unfold dump_char dump_char_store
    rw [if_pos rfl]
    exact flushdump_zero _
  · intro st c h
    unfold dump_char
    rw [if_pos h]
    unfold dump_char_store
    split_ifs with hc
    · rw [hflushid _ (flushdump_zero st)]
      exact hflushlen st (by omega)
    · show (flushdump st).outlines.length = st.outlines.length + 1
      exact hflushlen st (by omega)
  · intro st c i h hi
    unfold dump_char
    have hstage := dump_char_stage_le st h
    set st1 := if 1024 ≤ st.dumplinepos then flushdump st else st with hst1
    have hline : st1.dumpline = st.dumpline := by
      rw [hst1]
      split_ifs
      · exact flushdump_dumpline st
      · rfl
    unfold dump_char_store
    split_ifs with hc
    · rw [flushdump_dumpline, hline]
    · show Function.update st1.dumpline st1.dumplinepos c i = st.dumpline i
      rw [Function.update_noteq (by omega), hline]

/-- Witness for `dump_linepos_bounds` at a concrete state. -/
theorem dump_linepos_bounds_witness :
    (dumpstate.mk (fun _ => 0) 5 []).dumplinepos ≤ 1024 ∧
    (dump (dumpstate.mk (fun _ => 0) 5 []) [97, 10, 98]).dumplinepos ≤ 1024 := by
  exact ⟨by decide,
    dump_linepos_bounds.1 (dumpstate.mk (fun _ => 0) 5 []) [97, 10, 98] (by decide)⟩

/-! ## C7: per-host rate snapshots -/

/-- `NUM_BUCKETS` from reqlog.c (`enum { NUM_BUCKETS = 10 }`). -/
def NUM_BUCKETS : Nat := 10

/-- The modulus of C `unsigned` (32-bit) arithmetic. -/
def U32 : Nat := 2 ^ 32

/-- The per-host record `struct nodestats`, restricted to the fields read
by `snap_nodestats_ll`.  Counters (`struct rawnodestats`, an array of
`NUM_RAW_NODESTATS` unsigned words) are modelled per index `ii`. -/
structure nodestats where
  prevtotals : Nat → Nat
  raw_buckets : Fin 10 → Nat → Nat
  bucket_spanms : Fin 10 → Int

/-- `snap_nodestats_ll(host, snap, disp_rates)`: with no installed record
the zeroed snapshot is returned; with `disp_rates`, each counter is the
bucket sum (`unsigned` accumulation, hence mod `2^32`) scaled by
`0.5 + NUM_BUCKETS * 1000.00 * (sum / timespanms)` truncated to unsigned,
where `timespanms` is the bucket span sum clamped to at least 1;
otherwise `prevtotals` is copied. -/
def snap_nodestats_ll (ns : Option nodestats) (disp_rates : Bool) : Nat → Nat :=
  match ns with
  | none => fun _ => 0
  | some ns =>
    if disp_rates then
      let timespanms : Int :=
        (List.finRange 10).foldl (fun acc b => acc + ns.bucket_spanms b) 0
      let sums : Nat → Nat := fun ii =>
        (List.finRange 10).foldl (fun acc b => (acc + ns.raw_buckets b ii) % U32) 0
      let t : Int := if timespanms ≤ 0 then 1 else timespanms
      fun ii =>
        (⌊(1 / 2 : ℚ) + (NUM_BUCKETS : ℚ) * 1000 * ((sums ii : ℚ) / (t : ℚ))⌋).toNat
    else fun ii => ns.prevtotals ii

/-- Folding `+` over a list starting from `a` adds the list sum. -/
lemma foldl_add_init (l : List (Fin 10)) (f : Fin 10 → Int) :
    ∀ a : Int, l.foldl (fun acc x => acc + f x) a = a + (l.map f).sum := by
  induction l with
  | nil => intro a; simp
  | cons x xs ih =>
    intro a
    simp only [List.foldl_cons, List.map_cons, List.sum_cons, ih]
    ring

/-- Folding `(· + f ·) % m` over a list from `a < m` is the sum mod `m`. -/
lemma foldl_addmod_init (m : Nat) (hm : 0 < m) (l : List (Fin 10))
    (f : Fin 10 → Nat) :
    ∀ a : Nat, a < m →
      l.foldl (fun acc x => (acc + f x) % m) a = (a + (l.map f).sum) % m := by
  induction l with
  | nil =>
    intro a ha
    simp [Nat.mod_eq_of_lt ha]
  | cons x xs ih =>
    intro a ha
    simp only [List.foldl_cons, List.map_cons, List.sum_cons]
    rw [ih _ (Nat.mod_lt _ hm), Nat.mod_add_mod]
    ring_nf

/-- C7: for an installed host record, a rates snapshot returns, per
counter, `round(10 × 1000 × Σbuckets / Σspan_ms)` with the span sum
replaced by 1 when it is ≤ 0 (stated for counters whose true bucket sum
fits in 32 bits, so the `unsigned` accumulation does not wrap); a
non-rates snapshot returns a copy of `prevtotals`. -/
theorem snap_nodestats_rates (ns : nodestats) (ii : Nat)
    (hsum : (∑ b : Fin 10, ns.raw_buckets b ii) < U32) :
    snap_nodestats_ll (some ns) true ii =
      (round ((10 * 1000 * ((∑ b : Fin 10, ns.raw_buckets b ii : Nat) : ℚ)) /
        ((if (∑ b : Fin 10, ns.bucket_spanms b) ≤ 0 then (1 : Int)
          else ∑ b : Fin 10, ns.bucket_spanms b) : ℚ))).toNat ∧
    snap_nodestats_ll (some ns) false ii = ns.prevtotals ii := by
  constructor
  · have hspan : (List.finRange 10).foldl (fun acc b => acc + ns.bucket_spanms b) 0
        = ∑ b : Fin 10, ns.bucket_spanms b := by
      rw [foldl_add_init _ _ 0, Fin.sum_univ_def]
      ring
    have hsums : (List.finRange 10).foldl
          (fun acc b => (acc + ns.raw_buckets b ii) % U32) 0
        = ∑ b : Fin 10, ns.raw_buckets b ii := by
      rw [foldl_addmod_init U32 (by decide) _ _ 0 (by decide)]
      rw [← Fin.sum_univ_def]
      rw [Nat.zero_add]
      exact Nat.mod_eq_of_lt hsum
    have hgoal : snap_nodestats_ll (some ns) true ii
        = (⌊(1 / 2 : ℚ) + (NUM_BUCKETS : ℚ) * 1000 *
            ((((List.finRange 10).foldl
                (fun acc b => (acc + ns.raw_buckets b ii) % U32) 0 : Nat) : ℚ) /
             (((if ((List.finRange 10).foldl
                    (fun acc b => acc + ns.bucket_spanms b) 0) ≤ 0 then (1 : Int)
                else (List.finRange 10).foldl
                    (fun acc b => acc + ns.bucket_spanms b) 0) : Int) : ℚ))⌋).toNat :=
      rfl
    rw [hgoal, hspan, hsums, round_eq]
    congr 1
    congr 1
    rw [add_comm, mul_div_assoc]
    norm_num [NUM_BUCKETS]
  · rfl

/-- A concrete host record: every bucket holds 3 for counter 0 and spans
1000 ms, so the 10-second rate is 30. -/
def ns_witness : nodestats :=
  { prevtotals := fun _ => 7,
    raw_buckets := fun _ _ => 3,
    bucket_spanms := fun _ => 1000 }

/-- Witness for `snap_nodestats_rates` at `ns_witness` (30 counts spread
over 10 seconds snapshot to a rate of 30 per 10 s window). -/
theorem snap_nodestats_rates_witness :
    (∑ b : Fin 10, ns_witness.raw_buckets b 0) < U32 ∧
    snap_nodestats_ll (some ns_witness) true 0 =
      (round ((10 * 1000 * ((∑ b : Fin 10, ns_witness.raw_buckets b 0 : Nat) : ℚ)) /
        ((if (∑ b : Fin 10, ns_witness.bucket_spanms b) ≤ 0 then (1 : Int)
          else ∑ b : Fin 10, ns_witness.bucket_spanms b) : ℚ))).toNat ∧
    snap_nodestats_ll (some ns_witness) true 0 = 30 ∧
    snap_nodestats_ll (some ns_witness) false 0 = ns_witness.prevtotals 0 := by
  have h : (∑ b : Fin 10, ns_witness.raw_buckets b 0) < U32 := by
    decide
  have h30 : snap_nodestats_ll (some ns_witness) true 0 = 30 := by
    have h1 := (snap_nodestats_rates ns_witness 0 h).1
    have hsum30 : (∑ b : Fin 10, ns_witness.raw_buckets b 0) = 30 := by decide
    have hspan : (∑ b : Fin 10, ns_witness.bucket_spanms b) = 10000 := by decide
    rw [hsum30, hspan] at h1
    rw [h1]
    norm_num [round_eq]
    rw [show (∑ b : Fin 10, ((ns_witness.bucket_spanms b : Int) : ℚ)) = 10000 by
      norm_num [ns_witness, Finset.sum_const, Finset.card_univ]]
    norm_num
    decide
  exact ⟨h, (snap_nodestats_rates ns_witness 0 h).1, h30,
    (snap_nodestats_rates ns_witness 0 h).2⟩

end Reqlog
